import Mathlib

set_option maxHeartbeats 2000000

/-
Verification of the MONAD-program optimizer (src/src/values.rs, src/src/program.rs,
src/src/optimization.rs) against its natural-language specification.

The embedding mirrors the source: value identities are natural numbers minted by a
monotonically increasing counter (threaded explicitly as a `Nat` holding the next id),
the abstract value domain is the `Value` sum type with the hand-written equality
relation of `impl PartialEq for Value`, and the optimizer is the three functions
`evaluate_instruction`, `constant_propagation` and `find_used_values` plus the
retention filter of `Program::optimize`. Code paths that panic in the source
(`unwrap`, `unreachable!`, integer division by zero, the length assertion) are
modelled by `Option`, with `none` standing for the panic.
-/

namespace MonadCompiler

/-- A value ID, `struct Vid(pub usize)` from values.rs. -/
abbrev Vid := Nat

/-- Reserved Vid for program values whose contents are undefined (values.rs). -/
def Vid.UNDEFINED : Vid := 0

/-- The abstract value domain, `enum Value` from values.rs: an exactly known
integer, the n-th external input, or a fully unknown value. Each carries its
identity. The derived `DecidableEq` is structural equality; the source's custom
`PartialEq` is `valueEq` below. -/
inductive Value where
  | Exact : Vid → Int → Value
  | Input : Vid → Nat → Value
  | Unknown : Vid → Value
deriving DecidableEq, Repr

/-- `Value::vid` from values.rs: the identity of an abstract value. -/
def Value.vid : Value → Vid
  | .Exact v _ => v
  | .Input v _ => v
  | .Unknown v => v

/-- Whether a value is of the `Exact` variant (`matches!(v, Value::Exact(..))`). -/
def Value.isExact : Value → Bool
  | .Exact _ _ => true
  | _ => false

/-- Whether a value is `Exact` with the given integer
(`matches!(v, Value::Exact(_, n))` for a literal `n`). -/
def Value.isExactVal : Value → Int → Bool
  | .Exact _ m, n => m == n
  | _, _ => false

/-- The hand-written `impl PartialEq for Value` from values.rs: two `Exact`
values compare by their integers (identity irrelevant); every other pair
compares by identity. -/
def valueEq : Value → Value → Bool
  | .Exact _ a, .Exact _ b => a == b
  | l, r => l.vid == r.vid

/-- The register file: a fixed array of 4 abstract values (w, x, y, z). -/
structure Registers where
  r0 : Value
  r1 : Value
  r2 : Value
  r3 : Value
deriving DecidableEq, Repr

/-- Indexing `registers[i]` for `i` in 0..4. -/
def Registers.get (rs : Registers) (i : Fin 4) : Value :=
  if i.val = 0 then rs.r0
  else if i.val = 1 then rs.r1
  else if i.val = 2 then rs.r2
  else rs.r3

/-- Assignment `registers[i] = v` for `i` in 0..4. -/
def Registers.set (rs : Registers) (i : Fin 4) (v : Value) : Registers :=
  if i.val = 0 then { rs with r0 := v }
  else if i.val = 1 then { rs with r1 := v }
  else if i.val = 2 then { rs with r2 := v }
  else { rs with r3 := v }

/-- Rust `==` on `[Value; 4]`: element-wise `Value` equality. -/
def regsEq (a b : Registers) : Bool :=
  valueEq a.r0 b.r0 && valueEq a.r1 b.r1 && valueEq a.r2 b.r2 && valueEq a.r3 b.r3

/-- `enum Operand` from program.rs: a literal integer or a register reference.
Registers are `Fin 4` per program.rs's documented w/x/y/z encoding. -/
inductive Operand where
  | Literal : Int → Operand
  | Register : Fin 4 → Operand
deriving DecidableEq, Repr

/-- `enum Instruction` from program.rs: the six MONAD instruction kinds. -/
inductive Instruction where
  | Input : Fin 4 → Instruction
  | Add : Fin 4 → Operand → Instruction
  | Mul : Fin 4 → Operand → Instruction
  | Div : Fin 4 → Operand → Instruction
  | Mod : Fin 4 → Operand → Instruction
  | Equal : Fin 4 → Operand → Instruction
deriving DecidableEq, Repr

/-- `Instruction::destination` from program.rs. -/
def Instruction.destination : Instruction → Fin 4
  | .Input r => r
  | .Add r _ => r
  | .Mul r _ => r
  | .Div r _ => r
  | .Mod r _ => r
  | .Equal r _ => r

/-- `Instruction::operand` from program.rs. -/
def Instruction.operand : Instruction → Option Operand
  | .Input _ => none
  | .Add _ o => some o
  | .Mul _ o => some o
  | .Div _ o => some o
  | .Mod _ o => some o
  | .Equal _ o => some o

/-- `matches!(instr, Instruction::Input(..))`. -/
def Instruction.isInput : Instruction → Bool
  | .Input _ => true
  | _ => false

/-- `matches!(instr, Instruction::Add(..))`. -/
def Instruction.isAdd : Instruction → Bool
  | .Add _ _ => true
  | _ => false

/-- `matches!(instr, Instruction::Mul(..))`. -/
def Instruction.isMul : Instruction → Bool
  | .Mul _ _ => true
  | _ => false

/-- `matches!(instr, Instruction::Div(..))`. -/
def Instruction.isDiv : Instruction → Bool
  | .Div _ _ => true
  | _ => false

/-- `matches!(instr, Instruction::Mod(..))`. -/
def Instruction.isMod : Instruction → Bool
  | .Mod _ _ => true
  | _ => false

/-- `matches!(instr, Instruction::Equal(..))`. -/
def Instruction.isEqual : Instruction → Bool
  | .Equal _ _ => true
  | _ => false

/-- `is_instruction_no_op` from optimization.rs lines 92-109: the first five
match arms are or-patterns returning `true`, then the exact Mod and exact Equal
arms, then `false` for everything else. -/
def is_instruction_no_op (instr : Instruction) (left right : Value) : Bool :=
  if (instr.isAdd && right.isExactVal 0)
      || (left.isExactVal 0 && instr.isMul)
      || (instr.isMul && right.isExactVal 1)
      || (left.isExactVal 0 && instr.isDiv)
      || (instr.isDiv && right.isExactVal 1) then
    true
  else
    match left, instr, right with
    | .Exact _ a, .Mod _ _, .Exact _ b => decide (a < b)
    | .Exact _ a, .Equal _ _, .Exact _ b =>
      ((a == b) && (a == 1)) || (!(a == b) && (a == 0))
    | _, _, _ => false

/-- `evaluate_instruction` from optimization.rs lines 13-89. The vid maker is
threaded as the next fresh id; `none` models the source's `unreachable!` on an
`Input` instruction with two exact operands, and the integer-division and
remainder panics on an exact zero divisor. Division truncates toward zero and
the remainder takes the dividend's sign, as for Rust's `i64`. -/
def evaluate_instruction (vm : Nat) (instr : Instruction) (left right : Value) :
    Option (Value × Nat) :=
  if is_instruction_no_op instr left right then
    some (left, vm)
  else if left.isExactVal 0 && instr.isAdd then
    some (right, vm)
  else if left.isExactVal 1 && instr.isMul then
    some (right, vm)
  else
    match left, right with
    | .Exact _ a, .Exact _ b =>
      match instr with
      | .Input _ => none
      | .Add _ _ => some (.Exact vm (a + b), vm + 1)
      | .Mul _ _ => some (.Exact vm (a * b), vm + 1)
      | .Div _ _ => if b = 0 then none else some (.Exact vm (a.tdiv b), vm + 1)
      | .Mod _ _ => if b = 0 then none else some (.Exact vm (a.tmod b), vm + 1)
      | .Equal _ _ => some (.Exact vm (if a = b then (1 : Int) else 0), vm + 1)
    | _, _ =>
      if valueEq left right && instr.isDiv then
        some (.Exact vm 1, vm + 1)
      else if valueEq left right && instr.isMod then
        some (.Exact vm 0, vm + 1)
      else if valueEq left right && instr.isEqual then
        some (.Exact vm 1, vm + 1)
      else if instr.isMul && (left.isExactVal 0 || right.isExactVal 0) then
        some (.Exact vm 0, vm + 1)
      else
        some (.Unknown vm, vm + 1)

/-- Operand resolution inside `constant_propagation`: a literal operand mints a
fresh `Exact` value, a register operand reads the current register content. -/
def resolve_operand (vm : Nat) (regs : Registers) : Operand → Value × Nat
  | .Literal lit => (Value.Exact vm lit, vm + 1)
  | .Register r => (regs.get r, vm)

/-- The loop body sequence of `constant_propagation` from optimization.rs lines
111-140, with the vid maker and the running input ordinal threaded explicitly.
Returns the list of post-instruction register snapshots and the final state of
the vid counter. -/
def constant_propagation_from (vm : Nat) (regs : Registers) (nextInput : Nat) :
    List Instruction → Option (List Registers × Nat)
  | [] => some ([], vm)
  | instr :: rest =>
    match instr with
    | .Input idx =>
      let regs' := regs.set idx (Value.Input vm nextInput)
      match constant_propagation_from (vm + 1) regs' (nextInput + 1) rest with
      | none => none
      | some (tail, vm') => some (regs' :: tail, vm')
    | _ =>
      match instr.operand with
      | none => none
      | some op =>
        let left := regs.get instr.destination
        let rv := resolve_operand vm regs op
        match evaluate_instruction rv.2 instr left rv.1 with
        | none => none
        | some (v, vm₂) =>
          let regs' := regs.set instr.destination v
          match constant_propagation_from vm₂ regs' nextInput rest with
          | none => none
          | some (tail, vm') => some (regs' :: tail, vm')

/-- `constant_propagation` from optimization.rs: the forward pass starts with
`next_input_id = 0`. -/
def constant_propagation (vm : Nat) (starting : Registers) (instrs : List Instruction) :
    Option (List Registers × Nat) :=
  constant_propagation_from vm starting 0 instrs

/-- The `source_value` read in `find_used_values`: the destination register's
value before the instruction. -/
def source_value (instr : Instruction) (rb : Registers) : Value :=
  rb.get instr.destination

/-- The `operand_register_value` read in `find_used_values`: the operand
register's pre-instruction value, when the operand is a register. -/
def operand_register_value (instr : Instruction) (rb : Registers) : Option Value :=
  match instr.operand with
  | some (.Register r) => some (rb.get r)
  | _ => none

/-- The `operand_value` read in `find_used_values`: a literal operand is wrapped
as `Exact` with the reserved undefined-provenance identity. -/
def operand_value (instr : Instruction) (rb : Registers) : Option Value :=
  match instr.operand with
  | some (.Register r) => some (rb.get r)
  | some (.Literal l) => some (Value.Exact Vid.UNDEFINED l)
  | none => none

/-- `special_case_mul_unused_source_values` from optimization.rs lines 256-267:
a multiplication where either side is provably `Exact(0)`. -/
def special_case_mul_unused (instr : Instruction) (rb : Registers) : Bool :=
  instr.isMul && ((source_value instr rb).isExactVal 0 ||
    (match operand_value instr rb with
     | some v => v.isExactVal 0
     | none => false))

/-- `special_case_eql_unused_source_values` from optimization.rs lines 268-275:
an equality test whose two sides are equal under the value domain's equality.
The source `unwrap`s the operand, which `Equal` instructions always carry. -/
def special_case_eql_unused (instr : Instruction) (rb : Registers) : Bool :=
  instr.isEqual &&
    valueEq (source_value instr rb)
      ((operand_value instr rb).getD (Value.Unknown Vid.UNDEFINED))

/-- One iteration of the backward loop of `find_used_values` (optimization.rs
lines 243-311): given the live set so far, the instruction and its surrounding
snapshots, produce the updated live set. -/
def liveness_step (used : Finset Vid) (instr : Instruction) (rb ra : Registers) :
    Finset Vid :=
  let src := source_value instr rb
  let destination_value := ra.get instr.destination
  if special_case_mul_unused instr rb = false ∧ special_case_eql_unused instr rb = false then
    match instr with
    | .Input _ => used
    | _ =>
      if valueEq destination_value src = false ∧ destination_value.vid ∈ used then
        let used₁ := insert src.vid used
        match operand_register_value instr rb with
        | some v => if v.isExact then used₁ else insert v.vid used₁
        | none => used₁
      else used
  else used

/-- `find_used_values` from optimization.rs lines 224-314. `none` models the
`unwrap` panic on an empty snapshot sequence and the length assertion; otherwise
the live set is seeded with the final snapshot's register-3 identity and the
instructions are folded over in reverse together with their before/after
register snapshots. -/
def find_used_values (starting : Registers) (registers_after : List Registers)
    (instrs : List Instruction) : Option (Finset Vid) :=
  match registers_after.getLast? with
  | none => none
  | some lastRegs =>
    if instrs.length = registers_after.length then
      let registers_before := starting :: registers_after.dropLast
      let triples := (instrs.zip (registers_before.zip registers_after)).reverse
      some (triples.foldl
        (fun used t => liveness_step used t.1 t.2.1 t.2.2) {lastRegs.r3.vid})
    else none

/-- The loop of `Program::optimize` (optimization.rs lines 200-221), walking the
instructions paired with their post-instruction snapshots while tracking the
current (pre-instruction) register file. An instruction is emitted when it is
not a register-file no-op and its destination's post-instruction identity is in
the live set. -/
def optimize_filter (used : Finset Vid) :
    Registers → List (Instruction × Registers) → List Instruction
  | _, [] => []
  | regs, (instr, next) :: rest =>
    let is_no_op := regsEq regs next
    let is_used_value := (next.get instr.destination).vid ∈ used
    if is_no_op = false ∧ is_used_value then
      instr :: optimize_filter used next rest
    else
      optimize_filter used next rest

/-- `Program::optimize` from optimization.rs, as a function of the data computed
by the forward pass. -/
def optimize (starting : Registers) (registers_after : List Registers)
    (instrs : List Instruction) (used : Finset Vid) : List Instruction :=
  optimize_filter used starting (instrs.zip registers_after)

/-- The four initial registers of `vid_maker_and_initial_registers` (values.rs):
independent `Exact 0` values with vids 1 through 4, the counter starting at 1. -/
def initial_registers : Registers :=
  ⟨Value.Exact 1 0, Value.Exact 2 0, Value.Exact 3 0, Value.Exact 4 0⟩

/-- The whole optimization pipeline `optimize(I)` of the specification: forward
constant propagation from the initial registers (next fresh vid 5), backward
liveness, then the retention filter. `none` models a panic in any stage. -/
def optimize_program (instrs : List Instruction) : Option (List Instruction) :=
  match constant_propagation 5 initial_registers instrs with
  | none => none
  | some (registers_after, _) =>
    match find_used_values initial_registers registers_after instrs with
    | none => none
    | some used => some (optimize initial_registers registers_after instrs used)

/-- Concrete register file: four integers, all registers starting at 0. -/
structure ConcreteRegs where
  w : Int
  x : Int
  y : Int
  z : Int
deriving DecidableEq, Repr

/-- Concrete register read. -/
def ConcreteRegs.get (rs : ConcreteRegs) (i : Fin 4) : Int :=
  if i.val = 0 then rs.w
  else if i.val = 1 then rs.x
  else if i.val = 2 then rs.y
  else rs.z

/-- Concrete register write. -/
def ConcreteRegs.set (rs : ConcreteRegs) (i : Fin 4) (v : Int) : ConcreteRegs :=
  if i.val = 0 then { rs with w := v }
  else if i.val = 1 then { rs with x := v }
  else if i.val = 2 then { rs with y := v }
  else { rs with z := v }

/-- Concrete operand resolution: literal integer or register content. -/
def concrete_operand (rs : ConcreteRegs) : Operand → Int
  | .Literal l => l
  | .Register r => rs.get r

/-- Modelled from the spec: the repository contains no concrete interpreter for
MONAD instruction sequences, only the abstract optimizer, so concrete execution
is taken from the spec's instruction list (section 3) and the MONAD language it
cites: `inp` consumes the next external input in order; `add`, `mul`, `div`,
`mod`, `eql` combine the destination register with the resolved operand,
division truncating toward zero; `none` models running out of inputs or a zero
divisor (both forbidden for valid input vectors). -/
def run_instructions : List Instruction → List Int → ConcreteRegs → Option ConcreteRegs
  | [], _, regs => some regs
  | .Input r :: rest, inputs, regs =>
    match inputs with
    | [] => none
    | i :: is => run_instructions rest is (regs.set r i)
  | .Add r o :: rest, inputs, regs =>
    run_instructions rest inputs (regs.set r (regs.get r + concrete_operand regs o))
  | .Mul r o :: rest, inputs, regs =>
    run_instructions rest inputs (regs.set r (regs.get r * concrete_operand regs o))
  | .Div r o :: rest, inputs, regs =>
    let d := concrete_operand regs o
    if d = 0 then none
    else run_instructions rest inputs (regs.set r ((regs.get r).tdiv d))
  | .Mod r o :: rest, inputs, regs =>
    let d := concrete_operand regs o
    if d = 0 then none
    else run_instructions rest inputs (regs.set r ((regs.get r).tmod d))
  | .Equal r o :: rest, inputs, regs =>
    run_instructions rest inputs
      (regs.set r (if regs.get r = concrete_operand regs o then 1 else 0))

/-- Concretely execute a program from the all-zero register state and observe
the final value of register 3 (z), the program's sole output. -/
def run_z (instrs : List Instruction) (inputs : List Int) : Option Int :=
  (run_instructions instrs inputs ⟨0, 0, 0, 0⟩).map ConcreteRegs.z

/-- The specification's no-op table (spec section 4.3), written from the spec's
words, to be compared against `is_instruction_no_op`: (Add, _, Exact 0),
(Multiply, Exact 0, _), (Multiply, _, Exact 1), (Divide, Exact 0, _),
(Divide, _, Exact 1), (Modulo, Exact a, Exact b) when a < b, and
(Equal, Exact a, Exact b) when (a = b and a = 1) or (a ≠ b and a = 0). -/
def spec_no_op_table : Instruction → Value → Value → Prop
  | .Add _ _, _, right => ∃ v, right = Value.Exact v 0
  | .Mul _ _, left, right =>
    (∃ v, left = Value.Exact v 0) ∨ (∃ v, right = Value.Exact v 1)
  | .Div _ _, left, right =>
    (∃ v, left = Value.Exact v 0) ∨ (∃ v, right = Value.Exact v 1)
  | .Mod _ _, left, right =>
    ∃ v w a b, left = Value.Exact v a ∧ right = Value.Exact w b ∧ a < b
  | .Equal _ _, left, right =>
    ∃ v w a b, left = Value.Exact v a ∧ right = Value.Exact w b ∧
      ((a = b ∧ a = 1) ∨ (a ≠ b ∧ a = 0))
  | .Input _, _, _ => False

/-- Claim C3: `is_instruction_no_op` returns true exactly on the entries of the
specification's section 4.3 no-op table — (Add, _, Exact 0), (Mul, Exact 0, _),
(Mul, _, Exact 1), (Div, Exact 0, _), (Div, _, Exact 1), (Mod, Exact a, Exact b)
iff a < b, (Equal, Exact a, Exact b) iff (a = b and a = 1) or (a ≠ b and a = 0)
— and false on every other combination of instruction kind and values. -/
theorem c3_no_op_table_exact (instr : Instruction) (l r : Value) :
    is_instruction_no_op instr l r = true ↔ spec_no_op_table instr l r := by
  cases instr <;> cases l <;> cases r <;>
    simp [is_instruction_no_op, spec_no_op_table, Instruction.isAdd,
      Instruction.isMul, Instruction.isDiv, Instruction.isMod,
      Instruction.isEqual, Value.isExactVal] <;>
    first
    | omega
    | (constructor
       · intro h
         exact ⟨_, _, _, ⟨rfl, rfl⟩, _, ⟨rfl, rfl⟩, h⟩
       · rintro ⟨v, w, a, ⟨rfl, rfl⟩, x, ⟨rfl, rfl⟩, h⟩
         exact h)

/-- Claim C7: two abstract values are equal under the value domain's equality
relation iff both are `Exact` with equal integer contents (identities
irrelevant), or at least one of them is not `Exact` and their identities are
equal. -/
theorem c7_value_equality_characterization (a b : Value) :
    valueEq a b = true ↔
      ((∃ i j n, a = Value.Exact i n ∧ b = Value.Exact j n) ∨
        ((a.isExact = false ∨ b.isExact = false) ∧ a.vid = b.vid)) := by
  cases a <;> cases b <;>
    simp [valueEq, Value.isExact, Value.vid]

/-- Claim C4 counterexample: the claim states that an Equal whose operands'
possible-value ranges cannot overlap yields Exact(0). With left an Input value
(domain [0,9]) and right Exact 15 — ranges provably disjoint — the evaluator
instead yields a fresh `Unknown` value, which is not an `Exact` at all: the
evaluator of the source contains no range reasoning. -/
theorem c4_equal_disjoint_ranges_counterexample :
    evaluate_instruction 7 (.Equal 1 (.Literal 15)) (Value.Input 5 0) (Value.Exact 6 15)
        = some (Value.Unknown 7, 8) ∧
      (Value.Unknown 7).isExact = false := by
  decide

/-- Claim C4 (amended): the evaluator performs no range reasoning at all. For
an Equal instruction whose operands are not both Exact and are not equal under
the value domain's equality relation — which covers every disjoint-range and
overlapping-range situation of the original claim — the result is a freshly
minted `Unknown` value, and the `Value` type carries no range for it; the
result is never `Exact 0`. -/
theorem c4_equal_fallback_unknown (vm : Nat) (d : Fin 4) (o : Operand) (l r : Value)
    (hnx : (l.isExact && r.isExact) = false)
    (hne : valueEq l r = false) :
    evaluate_instruction vm (.Equal d o) l r = some (.Unknown vm, vm + 1) := by
  cases l <;> cases r <;>
    simp_all [evaluate_instruction, is_instruction_no_op, valueEq, Value.isExact,
      Value.isExactVal, Instruction.isAdd, Instruction.isMul, Instruction.isDiv,
      Instruction.isMod, Instruction.isEqual]

/-- Claim C4 (amended) witness: the concrete disjoint-range instance — left an
Input with domain [0,9], right Exact 15 — evaluates to a fresh Unknown. -/
theorem c4_equal_fallback_unknown_witness :
    evaluate_instruction 7 (.Equal 1 (.Literal 15)) (Value.Input 5 0) (Value.Exact 6 15)
      = some (.Unknown 7, 8) :=
  c4_equal_fallback_unknown 7 1 (.Literal 15) (Value.Input 5 0) (Value.Exact 6 15)
    (by decide) (by decide)

/-- Claim C6: when no higher-priority rule fires (not a no-op, and — the
both-sides-exact computation having consumed that case — the operands are not
both Exact) and left equals right under the value domain's equality relation,
a Divide yields a newly minted Exact 1, a Modulo a newly minted Exact 0, and an
Equal a newly minted Exact 1, each consuming the next fresh identity. -/
theorem c6_identical_identity_rules (vm : Nat) (d : Fin 4) (o₁ o₂ o₃ : Operand)
    (l r : Value)
    (h₁ : is_instruction_no_op (.Div d o₁) l r = false)
    (h₂ : is_instruction_no_op (.Mod d o₂) l r = false)
    (h₃ : is_instruction_no_op (.Equal d o₃) l r = false)
    (hnx : (l.isExact && r.isExact) = false)
    (heq : valueEq l r = true) :
    evaluate_instruction vm (.Div d o₁) l r = some (.Exact vm 1, vm + 1) ∧
    evaluate_instruction vm (.Mod d o₂) l r = some (.Exact vm 0, vm + 1) ∧
    evaluate_instruction vm (.Equal d o₃) l r = some (.Exact vm 1, vm + 1) := by
  cases l <;> cases r <;>
    simp_all [evaluate_instruction, valueEq, Value.isExact, Value.isExactVal,
      Instruction.isAdd, Instruction.isMul, Instruction.isDiv, Instruction.isMod,
      Instruction.isEqual]

/-- Claim C6 witness: dividing, taking the remainder of, and comparing a value
against itself (same identity, not exact) at a concrete input. -/
theorem c6_identical_identity_rules_witness :
    evaluate_instruction 9 (.Div 1 (.Register 1)) (Value.Unknown 5) (Value.Unknown 5)
        = some (.Exact 9 1, 10) ∧
    evaluate_instruction 9 (.Mod 1 (.Register 1)) (Value.Unknown 5) (Value.Unknown 5)
        = some (.Exact 9 0, 10) ∧
    evaluate_instruction 9 (.Equal 1 (.Register 1)) (Value.Unknown 5) (Value.Unknown 5)
        = some (.Exact 9 1, 10) :=
  c6_identical_identity_rules 9 1 (.Register 1) (.Register 1) (.Register 1)
    (Value.Unknown 5) (Value.Unknown 5)
    (by decide) (by decide) (by decide) (by decide) (by decide)

/-- Claim C10: a Multiply whose left value (the destination register's current
value) is Exact 1 and which is not a no-op returns the right operand's value
unchanged — same identity, no new identity minted, the counter untouched. -/
theorem c10_mul_one_passthrough (vm : Nat) (d : Fin 4) (o : Operand) (l r : Value)
    (v : Vid)
    (hnoop : is_instruction_no_op (.Mul d o) l r = false)
    (hl : l = Value.Exact v 1) :
    evaluate_instruction vm (.Mul d o) l r = some (r, vm) := by
  subst hl
  simp [evaluate_instruction, hnoop, Value.isExactVal, Instruction.isAdd,
    Instruction.isMul]

/-- Claim C10 witness: multiplying a register holding Exact 1 by an unknown
operand hands back the operand value itself with the counter unchanged. -/
theorem c10_mul_one_passthrough_witness :
    evaluate_instruction 9 (.Mul 2 (.Register 1)) (Value.Exact 6 1) (Value.Unknown 5)
      = some (Value.Unknown 5, 9) :=
  c10_mul_one_passthrough 9 2 (.Register 1) (Value.Exact 6 1) (Value.Unknown 5) 6
    (by decide) rfl

/-- Claim C5: in the backward liveness pass, for a non-Input instruction with
neither algebraic exemption, when the destination's post-instruction identity is
live and its post-instruction value differs from its pre-instruction value, the
updated live set is exactly the old one plus the source value's identity
(unconditionally, even when that value is Exact), plus — only when the operand
is a register whose pre-instruction value is not Exact — that operand value's
identity; a literal operand contributes nothing. -/
theorem c5_liveness_marking (instr : Instruction) (rb ra : Registers)
    (used : Finset Vid)
    (hinput : instr.isInput = false)
    (hmul : special_case_mul_unused instr rb = false)
    (heql : special_case_eql_unused instr rb = false)
    (hchange : valueEq (ra.get instr.destination) (source_value instr rb) = false)
    (hlive : (ra.get instr.destination).vid ∈ used) :
    liveness_step used instr rb ra =
      (match operand_register_value instr rb with
       | some v =>
         if v.isExact then insert (source_value instr rb).vid used
         else insert v.vid (insert (source_value instr rb).vid used)
       | none => insert (source_value instr rb).vid used) := by
  unfold liveness_step
  rw [if_pos ⟨hmul, heql⟩]
  cases instr with
  | Input r => simp [Instruction.isInput] at hinput
  | Add d o => rw [if_pos ⟨hchange, hlive⟩]
  | Mul d o => rw [if_pos ⟨hchange, hlive⟩]
  | Div d o => rw [if_pos ⟨hchange, hlive⟩]
  | Mod d o => rw [if_pos ⟨hchange, hlive⟩]
  | Equal d o => rw [if_pos ⟨hchange, hlive⟩]

/-- Claim C5 witness: an Add through a register operand holding a non-Exact
value marks both the source identity and the operand identity live. -/
theorem c5_liveness_marking_witness :
    liveness_step {9} (.Add 1 (.Register 2))
        ⟨Value.Exact 1 0, Value.Unknown 2, Value.Unknown 3, Value.Exact 4 0⟩
        ⟨Value.Exact 1 0, Value.Unknown 9, Value.Unknown 3, Value.Exact 4 0⟩
      = insert 3 (insert 2 {9}) :=
  c5_liveness_marking (.Add 1 (.Register 2))
    ⟨Value.Exact 1 0, Value.Unknown 2, Value.Unknown 3, Value.Exact 4 0⟩
    ⟨Value.Exact 1 0, Value.Unknown 9, Value.Unknown 3, Value.Exact 4 0⟩
    {9} (by decide) (by decide) (by decide) (by decide) (by decide)

/-- Claim C9: on the empty instruction sequence, the backward liveness analysis
fails rather than returning an empty result — taking the last snapshot of an
empty snapshot sequence is the modelled panic — so the whole pipeline fails on
the empty program, and `find_used_values` is total exactly when the snapshot
sequence is non-empty (and, per its length assertion, matches the instruction
count). -/
theorem c9_empty_sequence_failure :
    optimize_program [] = none ∧
    ∀ (s : Registers) (ra : List Registers) (instrs : List Instruction),
      (find_used_values s ra instrs).isSome = true ↔
        (ra ≠ [] ∧ instrs.length = ra.length) := by
  constructor
  · rfl
  · intro s ra instrs
    unfold find_used_values
    cases hl : ra.getLast? with
    | none =>
      rw [List.getLast?_eq_none_iff] at hl
      simp [hl]
    | some lr =>
      have hne : ra ≠ [] := by
        intro h
        rw [h] at hl
        simp at hl
      by_cases hlen : instrs.length = ra.length
      · simp [hlen, hne]
      · simp [hlen]

/-- The program `inp w; inp x; add z x`, on which the optimizer drops `inp w`
(its Input value's identity is never live) even though removing an Input
desynchronizes the input ordinals of every later Input instruction. -/
def two_input_program : List Instruction :=
  [.Input 0, .Input 1, .Add 3 (.Register 1)]

/-- Number of Input instructions in a sequence. -/
def count_inputs (l : List Instruction) : Nat :=
  l.countP (fun i => i.isInput)

/-- Claim C1: the optimizer is claimed semantics-preserving on register 3 for
every valid input vector, but it is not. For `inp w; inp x; add z x` it
produces `inp x; add z x`, and on the valid input vector [0, 1] (both inputs in
[0,9], no division anywhere) the original program ends with z = 1 while the
optimized program ends with z = 0: dropping `inp w` makes the surviving `inp x`
consume the first input instead of the second. -/
theorem c1_soundness_failure :
    optimize_program two_input_program = some [.Input 1, .Add 3 (.Register 1)] ∧
    run_z two_input_program [0, 1] = some 1 ∧
    run_z [.Input 1, .Add 3 (.Register 1)] [0, 1] = some 0 := by
  refine ⟨by decide, by decide, by decide⟩

/-- Claim C2: every Input instruction is claimed to be retained, preserving the
Input count; but `Program::optimize` has no special case for Input instructions
and drops them like any other instruction whose result identity is not live:
`inp w; inp x; add z x` has two Inputs, its optimized form only one. -/
theorem c2_input_retention_failure :
    optimize_program two_input_program = some [.Input 1, .Add 3 (.Register 1)] ∧
    count_inputs two_input_program = 2 ∧
    count_inputs [.Input 1, .Add 3 (.Register 1)] = 1 := by
  refine ⟨by decide, by decide, by decide⟩

/-- The program `add x 5; mul x 0; add x 7; add z x`, witnessing that a second
optimizer pass removes more than the first. -/
def shrinking_program : List Instruction :=
  [.Add 1 (.Literal 5), .Mul 1 (.Literal 0), .Add 1 (.Literal 7), .Add 3 (.Register 1)]

/-- First-pass output of `shrinking_program`: the dead `add x 5` is dropped but
`mul x 0` is kept (x held Exact 5 before it, so it is not a no-op there). -/
def shrinking_program_once : List Instruction :=
  [.Mul 1 (.Literal 0), .Add 1 (.Literal 7), .Add 3 (.Register 1)]

/-- Claim C8 counterexample: optimize is claimed idempotent, but on
`add x 5; mul x 0; add x 7; add z x` the first pass keeps `mul x 0` while the
second pass — where x now still holds its initial Exact 0 before the multiply —
classifies it as a no-op and removes it, so the two passes disagree. -/
theorem c8_idempotence_counterexample :
    optimize_program shrinking_program = some shrinking_program_once ∧
    optimize_program shrinking_program_once
        = some [.Add 1 (.Literal 7), .Add 3 (.Register 1)] ∧
    ([.Add 1 (.Literal 7), .Add 3 (.Register 1)] : List Instruction)
        ≠ shrinking_program_once := by
  refine ⟨by decide, by decide, by decide⟩

/-- The snapshot list produced by the forward pass has one entry per
instruction. -/
theorem constant_propagation_from_length (instrs : List Instruction) :
    ∀ (vm : Nat) (regs : Registers) (ni : Nat) (snaps : List Registers) (vmf : Nat),
      constant_propagation_from vm regs ni instrs = some (snaps, vmf) →
      snaps.length = instrs.length := by
  induction instrs with
  | nil =>
    intro vm regs ni snaps vmf h
    simp only [constant_propagation_from, Option.some.injEq, Prod.mk.injEq] at h
    simp [← h.1]
  | cons instr rest ih =>
    intro vm regs ni snaps vmf h
    simp only [constant_propagation_from] at h
    split at h
    · split at h
      · exact absurd h (by simp)
      · rename_i tail vm2 heq
        simp only [Option.some.injEq, Prod.mk.injEq] at h
        obtain ⟨h1, -⟩ := h
        subst h1
        simp [ih _ _ _ _ _ heq]
    · split at h
      · exact absurd h (by simp)
      · split at h
        · exact absurd h (by simp)
        · split at h
          · exact absurd h (by simp)
          · rename_i tail vm3 heq
            simp only [Option.some.injEq, Prod.mk.injEq] at h
            obtain ⟨h1, -⟩ := h
            subst h1
            simp [ih _ _ _ _ _ heq]

/-- The retention loop of `Program::optimize` only ever emits a subsequence of
the instructions it walks. -/
theorem optimize_filter_sublist (used : Finset Vid) :
    ∀ (l : List (Instruction × Registers)) (regs : Registers),
      (optimize_filter used regs l).Sublist (l.map Prod.fst) := by
  intro l
  induction l with
  | nil => intro regs; simp [optimize_filter]
  | cons hd tl ih =>
    intro regs
    obtain ⟨instr, next⟩ := hd
    by_cases h : regsEq regs next = false ∧ (next.get instr.destination).vid ∈ used
    · simpa [optimize_filter, h] using List.Sublist.cons₂ instr (ih next)
    · simp only [optimize_filter, if_neg h, List.map_cons]
      exact (ih next).trans (List.sublist_cons_self _ _)

/-- Claim C8 (amended): re-optimizing an optimized program, when both passes
complete, yields a subsequence (in order) of the once-optimized program — a
second pass can only remove further instructions, and on some programs it does
remove more, so full idempotence fails. -/
theorem c8_second_pass_sublist (I Q R : List Instruction)
    (h₁ : optimize_program I = some Q) (h₂ : optimize_program Q = some R) :
    R.Sublist Q := by
  unfold optimize_program at h₂
  cases hcp : constant_propagation 5 initial_registers Q with
  | none =>
    simp only [hcp] at h₂
    exact absurd h₂ (by simp)
  | some p =>
    obtain ⟨after, vmf⟩ := p
    simp only [hcp] at h₂
    cases hfu : find_used_values initial_registers after Q with
    | none =>
      simp only [hfu] at h₂
      exact absurd h₂ (by simp)
    | some used =>
      simp only [hfu, Option.some.injEq] at h₂
      subst h₂
      have hlen : after.length = Q.length :=
        constant_propagation_from_length Q 5 initial_registers 0 after vmf hcp
      have hzip : (Q.zip after).map Prod.fst = Q :=
        List.map_fst_zip Q after (le_of_eq hlen.symm)
      have hsub := optimize_filter_sublist used (Q.zip after) initial_registers
      rw [hzip] at hsub
      exact hsub

/-- Claim C8 (amended) witness: at the concrete shrinking program, the second
pass's strictly shorter output is a subsequence of the first pass's output. -/
theorem c8_second_pass_sublist_witness :
    optimize_program shrinking_program = some shrinking_program_once ∧
    optimize_program shrinking_program_once
        = some [.Add 1 (.Literal 7), .Add 3 (.Register 1)] ∧
    List.Sublist [.Add 1 (.Literal 7), .Add 3 (.Register 1)] shrinking_program_once :=
  ⟨by decide, by decide,
    c8_second_pass_sublist shrinking_program shrinking_program_once
      [.Add 1 (.Literal 7), .Add 3 (.Register 1)] (by decide) (by decide)⟩

end MonadCompiler
